import Mathlib

/-!
Verification development for the quiz analyzer (src/quiz_analyzer.py).

The Python program is embedded shallowly:

* The regex-based extraction of `load_quiz` (lines 27-62) is embedded as a
  character-level matcher implementing the leftmost, non-overlapping match
  semantics of `re.findall` for the two fixed patterns of lines 32-33
  (greedy `\s*`, `\d+`, `[^"]+` pieces are deterministic maximal munch here
  because the character that follows each of them in the pattern can never
  belong to the repeated class; the lazy `(.*?)` piece stops at the first
  position where the rest of the pattern matches).
* Python dicts and `collections.Counter` are embedded as association lists
  in key insertion order; `dict.__setitem__` keeps the position of an
  existing key and `Counter` iterates keys in first-insertion order.
* Python sets are embedded as duplicate-free lists; only their membership,
  size and sorted iteration are used by the program.
* Fallible arithmetic (`/` by zero at line 160, `max`/`min` of an empty
  sequence at line 309) is embedded with `Option`, `none` marking the raised
  exception; true division is embedded with `Rat`.
-/

/-- Option record of the quiz: display text and personality label
(dictionaries built at lines 49-52 of the source). -/
structure OptionRec where
  text : String
  personality : String
deriving DecidableEq

/-- Question record: integer id, prompt text, ordered options
(dictionaries built at lines 56-60 of the source). -/
structure Question where
  id : Nat
  question : String
  options : List OptionRec
deriving DecidableEq

/-- The whitespace class matched by the ASCII part of the regex class
backslash-s: space, tab, newline, carriage return, vertical tab, form feed. -/
def isWS (c : Char) : Bool :=
  c = ' ' || c = '\t' || c = '\n' || c = '\r' || c = '\x0b' || c = '\x0c'

/-- Maximal munch of the whitespace class (the greedy regex piece \s*). -/
def dropWS : List Char → List Char
  | [] => []
  | c :: cs => if isWS c then dropWS cs else c :: cs

/-- Match a literal sequence of characters, returning the rest. -/
def litStr : List Char → List Char → Option (List Char)
  | [], cs => some cs
  | _ :: _, [] => none
  | p :: ps, c :: cs => if c = p then litStr ps cs else none

/-- Decimal digit test and value (the regex class backslash-d, ASCII part). -/
def digitVal? (c : Char) : Option Nat :=
  if '0' ≤ c && c ≤ '9' then some (c.toNat - 48) else none

/-- Greedy continuation of a digit run, accumulating the decoded number
(together with digits1 this embeds the regex piece (\d+) plus Python int). -/
def digitsLoop (acc : Nat) : List Char → Nat × List Char
  | [] => (acc, [])
  | c :: cs =>
    match digitVal? c with
    | some d => digitsLoop (acc * 10 + d) cs
    | none => (acc, c :: cs)

/-- Match one or more digits (the regex piece (\d+)) and decode the number. -/
def digits1 : List Char → Option (Nat × List Char)
  | [] => none
  | c :: cs =>
    match digitVal? c with
    | some d => some (digitsLoop d cs)
    | none => none

/-- Split off the maximal run of non-quote characters. -/
def takeUntilQuote : List Char → List Char × List Char
  | [] => ([], [])
  | c :: cs =>
    if c = '"' then ([], c :: cs)
    else
      let p := takeUntilQuote cs
      (c :: p.1, p.2)

/-- Match the regex piece ([^"]+)" — a nonempty run of non-quote characters
followed by the closing quote; returns the captured run and the rest. -/
def quotedField (cs : List Char) : Option (List Char × List Char) :=
  match takeUntilQuote cs with
  | ([], _) => none
  | (_ :: _, []) => none
  | (b :: bs, _ :: rest) => some (b :: bs, rest)

/-- Match the lazy regex tail (.*?)\]\s*\} under re.DOTALL: consume the
minimal run of arbitrary characters such that the rest starts with a closing
bracket, optional whitespace and a closing brace; returns the captured run
and the rest after the closing brace. -/
def lazyBody : List Char → Option (List Char × List Char)
  | [] => none
  | c :: rest =>
    if c = ']' then
      match dropWS rest with
      | '\x7d' :: rest2 => some ([], rest2)
      | _ =>
        match lazyBody rest with
        | some p => some (c :: p.1, p.2)
        | none => none
    else
      match lazyBody rest with
      | some p => some (c :: p.1, p.2)
      | none => none

/-- Attempt to match the question pattern of source line 32 at the current
position; on success returns ((id, question text, options text), rest). -/
def matchQuestionAt (cs : List Char) : Option ((Nat × List Char × List Char) × List Char) :=
  match cs with
  | '\x7b' :: r0 =>
    match litStr [ 'i', 'd', ':' ] (dropWS r0) with
    | none => none
    | some r2 =>
      match digits1 (dropWS r2) with
      | none => none
      | some (n, r4) =>
        match litStr [ ',' ] r4 with
        | none => none
        | some r5 =>
          match litStr [ 'q', 'u', 'e', 's', 't', 'i', 'o', 'n', ':' ] (dropWS r5) with
          | none => none
          | some r7 =>
            match litStr [ '"' ] (dropWS r7) with
            | none => none
            | some r9 =>
              match quotedField r9 with
              | none => none
              | some (qt, r10) =>
                match litStr [ ',' ] r10 with
                | none => none
                | some r11 =>
                  match litStr [ 'o', 'p', 't', 'i', 'o', 'n', 's', ':' ] (dropWS r11) with
                  | none => none
                  | some r13 =>
                    match litStr [ '[' ] (dropWS r13) with
                    | none => none
                    | some r15 =>
                      match lazyBody r15 with
                      | none => none
                      | some (body, r16) => some ((n, qt, body), r16)
  | _ => none

/-- Attempt to match the option pattern of source line 33 at the current
position; on success returns ((text, personality), rest). -/
def matchOptionAt (cs : List Char) : Option ((List Char × List Char) × List Char) :=
  match cs with
  | '\x7b' :: r0 =>
    match litStr [ 't', 'e', 'x', 't', ':' ] (dropWS r0) with
    | none => none
    | some r2 =>
      match litStr [ '"' ] (dropWS r2) with
      | none => none
      | some r4 =>
        match quotedField r4 with
        | none => none
        | some (txt, r5) =>
          match litStr [ ',' ] r5 with
          | none => none
          | some r6 =>
            match litStr [ 'p', 'e', 'r', 's', 'o', 'n', 'a', 'l', 'i', 't', 'y', ':' ] (dropWS r6) with
            | none => none
            | some r8 =>
              match litStr [ '"' ] (dropWS r8) with
              | none => none
              | some r10 =>
                match quotedField r10 with
                | none => none
                | some (pers, r11) =>
                  match dropWS r11 with
                  | '\x7d' :: r12 => some ((txt, pers), r12)
                  | _ => none
  | _ => none

/-- Leftmost non-overlapping scan of re.findall: try the matcher at every
position left to right, emitting each match and resuming after it.  The fuel
argument, instantiated with one more than the text length, bounds the
recursion; every step consumes at least one character, so the fuel never
runs out on the instantiations used below. -/
def findMatchesAux {α : Type} (matchAt : List Char → Option (α × List Char)) :
    Nat → List Char → List α
  | 0, _ => []
  | fuel + 1, cs =>
    match matchAt cs with
    | some (m, rest) => m :: findMatchesAux matchAt fuel rest
    | none =>
      match cs with
      | [] => []
      | _ :: t => findMatchesAux matchAt fuel t

/-- All question-pattern matches of the text (re.findall at line 35). -/
def findQuestions (cs : List Char) : List (Nat × List Char × List Char) :=
  findMatchesAux matchQuestionAt (cs.length + 1) cs

/-- All option-pattern matches of an options text (re.findall at line 43). -/
def findOptions (cs : List Char) : List (List Char × List Char) :=
  findMatchesAux matchOptionAt (cs.length + 1) cs

/-- The pure part of load_quiz (source lines 35-62): build the question list
from the question-pattern matches, each with its option list.  Reading the
file is modelled separately (mainFlow below); once the text is in memory no
exception can be raised by this part. -/
def load_quiz (content : String) : List Question :=
  (findQuestions content.toList).map fun m =>
    { id := m.1
      question := String.mk m.2.1
      options := (findOptions m.2.2).map fun o =>
        { text := String.mk o.1, personality := String.mk o.2 } }

/-- All personality labels of all options in extraction order (the stream of
personality strings fed into self.personalities and
self.personality_distribution at lines 53-54). -/
def allLabels (qs : List Question) : List String :=
  (qs.map fun q => q.options.map fun o => o.personality).flatten

/-- Deduplication keeping the first occurrence of each element — the key
iteration order of a Python dict or Counter built by repeated insertion. -/
def dedupFirst : List String → List String
  | [] => []
  | v :: vs => v :: (dedupFirst vs).filter fun x => x ≠ v

/-- The set self.personalities, as the duplicate-free list of labels in
first-occurrence order. -/
def observedLabels (qs : List Question) : List String :=
  dedupFirst (allLabels qs)

/-- The count self.personality_distribution[l] (0 when absent). -/
def labelCount (qs : List Question) (l : String) : Nat :=
  (allLabels qs).count l

/-- The Counter self.personality_distribution as an association list in key
first-insertion order (dict(self.personality_distribution) at line 114). -/
def distributionCounts (qs : List Question) : List (String × Nat) :=
  (observedLabels qs).map fun l => (l, labelCount qs l)

/-- The fixed reference set expected_personalities of source lines 78-82,
as the list of its 15 distinct member strings. -/
def referenceLabels : List String :=
  [ "Stratège", "Créatif", "Organisateur", "Communicant", "Leader",
    "Collaboratif", "Mentor", "Indépendant", "Entrepreneur", "Réaliste",
    "Visionnaire", "Méthodique", "Explorateur", "Idéaliste", "Perfectionniste" ]

/-- Set difference expected_personalities - self.personalities (line 85). -/
def missing_personalities (qs : List Question) : List String :=
  referenceLabels.filter fun l => ¬ l ∈ observedLabels qs

/-- Set difference self.personalities - expected_personalities (line 86). -/
def extra_personalities (qs : List Question) : List String :=
  (observedLabels qs).filter fun l => ¬ l ∈ referenceLabels

/-- Sum of the Counter values (total_options at line 99). -/
def total_options (qs : List Question) : Nat :=
  ((distributionCounts qs).map fun p => p.2).sum

/-- Ideal even share (line 100): total options divided by the size of the
reference set, in exact rational arithmetic for the Python float division. -/
def ideal_per_personality (qs : List Question) : ℚ :=
  (total_options qs : ℚ) / (referenceLabels.length : ℚ)

/-- Percentage of one label (line 104): guarded against a zero denominator,
defaulting to 0. -/
def percentageOf (qs : List Question) (l : String) : ℚ :=
  if 0 < total_options qs then (labelCount qs l : ℚ) / (total_options qs : ℚ) * 100
  else 0

/-- Insert a string into an ascending list (helper for Python sorted). -/
def insertStr (x : String) : List String → List String
  | [] => [x]
  | y :: ys => if x ≤ y then x :: y :: ys else y :: insertStr x ys

/-- Python sorted on a collection of strings: ascending lexicographic order
on code points, which is exactly the String order. -/
def sortStr : List String → List String
  | [] => []
  | x :: xs => insertStr x (sortStr xs)

/-- An AnswerSet: the dict answers, embedded as an association list from
question id to chosen label in key insertion order. -/
abbrev AnswerSet := List (Nat × String)

/-- Python dict assignment d[k] = v: replace the value in place if the key
is present (keeping its position), otherwise append the new pair. -/
def dictInsert : AnswerSet → Nat → String → AnswerSet
  | [], k, v => [(k, v)]
  | (k0, v0) :: rest, k, v =>
    if k0 = k then (k0, v) :: rest else (k0, v0) :: dictInsert rest k v

/-- Python dict lookup d.get(k): the value of the unique entry with the key,
if any. -/
def dictGet (d : AnswerSet) (k : Nat) : Option String :=
  (d.find? fun p => p.1 == k).map fun p => p.2

/-- scores = Counter(answers.values()) iterates its keys in first-occurrence
order of answers.values(); max_score = max(scores.values()) (line 195). -/
def maxScore (vals : List String) : Nat :=
  ((dedupFirst vals).map fun k => vals.count k).foldr max 0

/-- The Scoring Engine (source lines 193-197, identical at lines 250-254):
tally the chosen labels, keep the labels with the maximal tally in tally
iteration order, and return the first of them; the empty AnswerSet yields no
winner (the falsy-Counter guard at line 194). -/
def scoreWinner (answers : AnswerSet) : Option String :=
  ((dedupFirst (answers.map Prod.snd)).filter fun k =>
    (answers.map Prod.snd).count k == maxScore (answers.map Prod.snd)).head?

/-- Insert a pair into a list ascending by question id (helper for the
spec-order scan). -/
def insertById (p : Nat × String) : AnswerSet → AnswerSet
  | [] => [p]
  | q :: qs => if p.1 ≤ q.1 then p :: q :: qs else q :: insertById p qs

/-- Sort an AnswerSet by ascending question id (helper for the spec-order
scan). -/
def sortById : AnswerSet → AnswerSet
  | [] => []
  | p :: ps => insertById p (sortById ps)

/-- Modelled from the spec words for the tie-break rule: the tally is built
while scanning the answers in increasing question-id order, and the winner
is the first-inserted label among those with the maximal tally. -/
def specTieBreakWinner (answers : AnswerSet) : Option String :=
  scoreWinner (sortById answers)

/-- Python Counter increment c[k] += 1: bump the value of an existing key in
place, else append the key with count 1. -/
def counterAdd : List (String × Nat) → String → List (String × Nat)
  | [], k => [(k, 1)]
  | (k0, n) :: rest, k =>
    if k0 = k then (k0, n + 1) :: rest else (k0, n) :: counterAdd rest k

/-- Python set.add: append the element unless already present. -/
def setAdd (s : List String) (k : String) : List String :=
  if k ∈ s then s else s ++ [k]

/-- Counter lookup c.get(k, 0). -/
def countOf (c : List (String × Nat)) (l : String) : Nat :=
  match c.find? fun p => p.1 == l with
  | some p => p.2
  | none => 0

/-- One trial of the Reachability Simulator (source lines 186-190): for each
question with a nonempty option list, pick one option — random.choice is
embedded as an oracle pick giving an arbitrary index per question position,
reduced modulo the option count so that any oracle denotes a valid choice —
and record its label under the question id. -/
def trial_answers_aux (pick : Nat → Nat) : Nat → AnswerSet → List Question → AnswerSet
  | _, ans, [] => ans
  | i, ans, q :: rest =>
    match q.options with
    | [] => trial_answers_aux pick (i + 1) ans rest
    | o :: os =>
      trial_answers_aux pick (i + 1)
        (dictInsert ans q.id (((o :: os).getD (pick i % (o :: os).length) o).personality)) rest

/-- The answers dict built by one simulation trial. -/
def trial_answers (qs : List Question) (pick : Nat → Nat) : AnswerSet :=
  trial_answers_aux pick 0 [] qs

/-- Result record of simulate_quiz_results (source lines 216-221). -/
structure SimResult where
  reachable_count : Nat
  reachable_personalities : List String
  missing_personalities : List String
  results_distribution : List (String × Nat)
deriving DecidableEq

/-- One iteration of the simulation loop (source lines 184-200): score the
trial answers; when a winner exists, count it and mark it reachable. -/
def sim_step (qs : List Question) (choice : Nat → Nat → Nat)
    (st : List (String × Nat) × List String) (t : Nat) :
    List (String × Nat) × List String :=
  match scoreWinner (trial_answers qs (choice t)) with
  | none => st
  | some w => (counterAdd st.1 w, setAdd st.2 w)

/-- The Reachability Simulator (source lines 174-221), parameterised by the
number of trials and the random oracle (choice t i = index drawn in trial t
for question position i). -/
def simulate_quiz_results (qs : List Question) (numSims : Nat)
    (choice : Nat → Nat → Nat) : SimResult :=
  let st := (List.range numSims).foldl (sim_step qs choice) ([], [])
  { reachable_count := st.2.length
    reachable_personalities := st.2
    missing_personalities := (observedLabels qs).filter fun p => ¬ p ∈ st.2
    results_distribution := st.1 }

/-- The winning labels of the successive trials, in trial order (those
winners the loop of lines 184-200 records). -/
def trialWinners (qs : List Question) (numSims : Nat)
    (choice : Nat → Nat → Nat) : List String :=
  (List.range numSims).filterMap fun t => scoreWinner (trial_answers qs (choice t))

/-- The default trial count of simulate_quiz_results (line 174). -/
def defaultNumSims : Nat := 1000

/-- First option carrying the target label, if any (lines 236-240). -/
def findTargetOption (opts : List OptionRec) (target : String) : Option OptionRec :=
  opts.find? fun o => o.personality == target

/-- One question step of the probe AnswerSet construction (lines 234-247):
answer the target label when the question offers it, else the label of the
first option; a question with no options contributes no answer. -/
def targeted_answers_step (target : String) (ans : AnswerSet) (q : Question) : AnswerSet :=
  match findTargetOption q.options target with
  | some _ => dictInsert ans q.id target
  | none =>
    match q.options with
    | [] => ans
    | o :: _ => dictInsert ans q.id o.personality

/-- The probe AnswerSet for one target label (lines 233-247). -/
def build_targeted_answers (qs : List Question) (target : String) : AnswerSet :=
  qs.foldl (targeted_answers_step target) []

/-- The labels the Targeted Prober iterates over:
sorted(self.personalities) at line 231 — the observed labels, ascending. -/
def probeTargets (qs : List Question) : List String :=
  sortStr (observedLabels qs)

/-- Result record of generate_targeted_tests (lines 267-270). -/
structure TargetedResult where
  successful : List String
  failed : List String
deriving DecidableEq

/-- One iteration of the probe loop (lines 231-261): score the probe
AnswerSet; with a winner equal to the target the target is recorded
successful, with a different winner it is recorded failed, and with no
winner (empty tally) it is recorded in neither set. -/
def probe_step (qs : List Question) (acc : TargetedResult) (target : String) : TargetedResult :=
  match scoreWinner (build_targeted_answers qs target) with
  | none => acc
  | some w =>
    if w = target then { acc with successful := setAdd acc.successful target }
    else { acc with failed := setAdd acc.failed target }

/-- The Targeted Prober (source lines 223-270). -/
def generate_targeted_tests (qs : List Question) : TargetedResult :=
  (probeTargets qs).foldl (probe_step qs) ⟨[], []⟩

/-- Python true division with the ZeroDivisionError of a zero denominator
embedded as none. -/
def pyDivQ (a : ℚ) (b : Nat) : Option ℚ :=
  if b = 0 then none else some (a / (b : ℚ))

/-- Python max of a sequence, the ValueError of an empty sequence embedded
as none. -/
def pyMaxNat : List Nat → Option Nat
  | [] => none
  | x :: xs => some (xs.foldl max x)

/-- Python min of a sequence, the ValueError of an empty sequence embedded
as none. -/
def pyMinNat : List Nat → Option Nat
  | [] => none
  | x :: xs => some (xs.foldl min x)

/-- Number of options and number of distinct labels of one question — the
fields of the per-question analysis entries of lines 130-137 that the
statistics of lines 160-161 consume. -/
def question_entry (q : Question) : Nat × Nat :=
  (q.options.length, (dedupFirst (q.options.map fun o => o.personality)).length)

/-- The two averages of analyze_question_balance (source lines 160-161):
sums of the per-question entries divided by the number of entries.  With
zero questions both divisions raise ZeroDivisionError, embedded as none. -/
def balance_averages (qs : List Question) : Option (ℚ × ℚ) :=
  let qa := qs.map question_entry
  match pyDivQ ((qa.map fun p => p.1).sum : ℚ) qa.length,
        pyDivQ ((qa.map fun p => p.2).sum : ℚ) qa.length with
  | some a, some b => some (a, b)
  | _, _ => none

/-- Number of balance problems one question contributes (lines 140-147):
option count differing from 4, duplicated labels, fewer than 3 distinct
labels. -/
def question_problem_count (q : Question) : Nat :=
  (if q.options.length ≠ 4 then 1 else 0) +
  (if (dedupFirst (q.options.map fun o => o.personality)).length <
      (q.options.map fun o => o.personality).length then 1 else 0) +
  (if (dedupFirst (q.options.map fun o => o.personality)).length < 3 then 1 else 0)

/-- Total number of recorded balance problems (the list problems of
line 124). -/
def balance_problems (qs : List Question) : Nat :=
  (qs.map question_problem_count).sum

/-- Count spread of the report (source line 309): max minus min of the
distribution Counter values; raises (none) when the Counter is empty. -/
def countSpread (vals : List Nat) : Option Nat :=
  match pyMaxNat vals, pyMinNat vals with
  | some a, some b => some (a - b)
  | _, _ => none

/-- Scoring thresholds for the simulation and probe criteria
(lines 294-306). -/
def reachScore (n : Nat) : Nat :=
  if 13 ≤ n then 20 else if 10 ≤ n then 15 else if 7 ≤ n then 10 else 0

/-- Scoring thresholds for the count-spread criterion (lines 310-315). -/
def spreadScore (v : Nat) : Nat :=
  if v ≤ 2 then 20 else if v ≤ 4 then 15 else if v ≤ 6 then 10 else 0

/-- generate_report (source lines 272-350): run the four analyses in source
order and aggregate the score; the two unguarded computations (the balance
averages of lines 160-161 and the count spread of line 309) can raise, which
the Option result records as none — in that case no report value exists. -/
def generate_report (qs : List Question) (numSims : Nat)
    (choice : Nat → Nat → Nat) : Option (Nat × SimResult × TargetedResult) :=
  match balance_averages qs with
  | none => none
  | some _ =>
    let sim := simulate_quiz_results qs numSims choice
    let targ := generate_targeted_tests qs
    match countSpread ((distributionCounts qs).map fun p => p.2) with
    | none => none
    | some spread =>
      let s1 := if missing_personalities qs = [] ∧ extra_personalities qs = [] then 20 else 0
      let s2 := if balance_problems qs = 0 then 20 else 0
      let s3 := reachScore sim.reachable_count
      let s4 := reachScore targ.successful.length
      let s5 := spreadScore spread
      some (s1 + s2 + s3 + s4 + s5, sim, targ)

/-- Outcome of one program run (main, source lines 352-372). -/
inductive RunOutcome where
  | loadFailed
  | crashed
  | reported (score : Nat) (sim : SimResult) (targ : TargetedResult)
deriving DecidableEq

/-- main (source lines 352-372): an unreadable or undecodable input file
(the none case, the except path of lines 67-69) is reported as a load
failure and nothing else runs; otherwise the report generation runs on the
parsed questions, and an uncaught exception inside it loses the report. -/
def mainFlow (file : Option String) (numSims : Nat)
    (choice : Nat → Nat → Nat) : RunOutcome :=
  match file with
  | none => RunOutcome.loadFailed
  | some content =>
    match generate_report (load_quiz content) numSims choice with
    | none => RunOutcome.crashed
    | some r => RunOutcome.reported r.1 r.2.1 r.2.2

/-- Membership in a first-occurrence deduplication is membership in the
original list. -/
theorem mem_dedupFirst {a : String} : ∀ {l : List String}, a ∈ dedupFirst l ↔ a ∈ l
  | [] => Iff.rfl
  | v :: vs => by
    simp only [dedupFirst, List.mem_cons, List.mem_filter, decide_eq_true_eq]
    by_cases hav : a = v
    · simp [hav]
    · simp [hav, mem_dedupFirst (l := vs)]

/-- A first-occurrence deduplication has no duplicates. -/
theorem nodup_dedupFirst : ∀ l : List String, (dedupFirst l).Nodup
  | [] => List.nodup_nil
  | v :: vs => by
    simp only [dedupFirst, List.nodup_cons]
    refine ⟨fun hv => ?_, (nodup_dedupFirst vs).filter _⟩
    have := (List.mem_filter.mp hv).2
    simp at this

/-- The deduplication is empty exactly when the list is. -/
theorem dedupFirst_eq_nil_iff {l : List String} : dedupFirst l = [] ↔ l = [] := by
  cases l <;> simp [dedupFirst]

/-- Every element of a list of naturals is at most its right max fold. -/
theorem le_foldr_max : ∀ {ns : List Nat} {x : Nat}, x ∈ ns → x ≤ ns.foldr max 0
  | n :: ns, x, h => by
    rcases List.mem_cons.mp h with rfl | h
    · exact Nat.le_max_left _ _
    · exact Nat.le_trans (le_foldr_max h) (Nat.le_max_right _ _)

/-- A right max fold over a nonempty list is an element or zero. -/
theorem foldr_max_mem : ∀ {ns : List Nat}, ns ≠ [] →
    ns.foldr max 0 ∈ ns ∨ ns.foldr max 0 = 0
  | [n], _ => by simp [Nat.max_def]
  | n :: m :: ns, _ => by
    rcases foldr_max_mem (show m :: ns ≠ [] by simp) with h | h
    · rcases Nat.le_total n ((m :: ns).foldr max 0) with hle | hle
      · rw [List.foldr_cons, Nat.max_eq_right hle]
        exact Or.inl (List.mem_cons_of_mem _ h)
      · rw [List.foldr_cons, Nat.max_eq_left hle]
        exact Or.inl (List.mem_cons_self _ _)
    · rw [List.foldr_cons, h, Nat.max_eq_left (Nat.zero_le n)]
      exact Or.inl (List.mem_cons_self _ _)

/-- The count of any present label is at most the maximal tally. -/
theorem count_le_maxScore {vals : List String} {k : String} (h : k ∈ vals) :
    vals.count k ≤ maxScore vals :=
  le_foldr_max (List.mem_map_of_mem _ (mem_dedupFirst.mpr h))

/-- On a nonempty value list the maximal tally is attained by some key. -/
theorem exists_count_eq_maxScore {vals : List String} (h : vals ≠ []) :
    ∃ k ∈ dedupFirst vals, vals.count k = maxScore vals := by
  have hkeys : dedupFirst vals ≠ [] := fun hc => h (dedupFirst_eq_nil_iff.mp hc)
  have hne : (dedupFirst vals).map (fun k => vals.count k) ≠ [] := by
    simpa using hkeys
  rcases foldr_max_mem hne with hmem | hzero
  · rcases List.mem_map.mp hmem with ⟨k, hk, hck⟩
    exact ⟨k, hk, hck⟩
  · obtain ⟨v, hv⟩ := List.exists_mem_of_ne_nil _ hkeys
    have hvv : v ∈ vals := mem_dedupFirst.mp hv
    have h1 : 1 ≤ vals.count v := List.count_pos_iff.mpr hvv
    have h2 : vals.count v ≤ maxScore vals := count_le_maxScore hvv
    rw [maxScore] at h2
    omega

/-- The maximal tally of a nonempty value list is positive. -/
theorem maxScore_pos {vals : List String} (h : vals ≠ []) : 0 < maxScore vals := by
  obtain ⟨k, hk, hck⟩ := exists_count_eq_maxScore h
  have := List.count_pos_iff.mpr (mem_dedupFirst.mp hk)
  omega

/-- Claim C5 — empty AnswerSet handling: the Scoring Engine produces no
winner exactly on the empty AnswerSet; the scoring computation is total (its
embedding raises no exception), and every nonempty AnswerSet yields a
winner. -/
theorem scoreWinner_eq_none_iff (answers : AnswerSet) :
    scoreWinner answers = none ↔ answers = [] := by
  constructor
  · intro h
    by_contra hne
    have hv : answers.map Prod.snd ≠ [] := by
      simpa using hne
    obtain ⟨k, hk, hck⟩ := exists_count_eq_maxScore hv
    have hmemf : k ∈ (dedupFirst (answers.map Prod.snd)).filter fun k =>
        (answers.map Prod.snd).count k == maxScore (answers.map Prod.snd) := by
      refine List.mem_filter.mpr ⟨hk, ?_⟩
      simpa using hck
    rcases List.exists_cons_of_ne_nil (List.ne_nil_of_mem hmemf) with ⟨c, cs, hcs⟩
    rw [scoreWinner, hcs] at h
    simp at h
  · rintro rfl
    rfl

/-- A nonempty list all of whose elements are one value has that value as
its optional head. -/
theorem head?_eq_of_all {xs : List String} {a : String} (hne : xs ≠ [])
    (h : ∀ x ∈ xs, x = a) : xs.head? = some a := by
  cases xs with
  | nil => exact absurd rfl hne
  | cons x xs => simpa using h x (List.mem_cons_self _ _)

/-- Claim C6 — unique-maximum scoring: a label whose tally is the maximum
and strictly exceeds every other present label is the winner, whatever the
insertion order of the AnswerSet was. -/
theorem scoreWinner_unique_max (answers : AnswerSet) (l : String)
    (hne : answers ≠ [])
    (hmax : (answers.map Prod.snd).count l = maxScore (answers.map Prod.snd))
    (huniq : ∀ x ∈ answers.map Prod.snd, x ≠ l →
      (answers.map Prod.snd).count x < (answers.map Prod.snd).count l) :
    scoreWinner answers = some l := by
  have hv : answers.map Prod.snd ≠ [] := by simpa using hne
  have hlv : l ∈ answers.map Prod.snd := by
    have := maxScore_pos hv
    exact List.count_pos_iff.mp (by omega)
  apply head?_eq_of_all
  · have : l ∈ (dedupFirst (answers.map Prod.snd)).filter fun k =>
        (answers.map Prod.snd).count k == maxScore (answers.map Prod.snd) := by
      refine List.mem_filter.mpr ⟨mem_dedupFirst.mpr hlv, by simpa using hmax⟩
    exact List.ne_nil_of_mem this
  · intro x hx
    have hxk := List.mem_filter.mp hx
    have hxv : x ∈ answers.map Prod.snd := mem_dedupFirst.mp hxk.1
    have hxc : (answers.map Prod.snd).count x = maxScore (answers.map Prod.snd) := by
      simpa using hxk.2
    by_contra hxl
    have := huniq x hxv hxl
    omega

/-- Sorting by id leaves a list already ascending in id unchanged. -/
theorem sortById_eq_self : ∀ {l : AnswerSet},
    l.Pairwise (fun a b => a.1 < b.1) → sortById l = l
  | [], _ => rfl
  | p :: ps, h => by
    rcases List.pairwise_cons.mp h with ⟨h1, h2⟩
    rw [sortById, sortById_eq_self h2]
    cases ps with
    | nil => rfl
    | cons q qs =>
      have : p.1 ≤ q.1 := Nat.le_of_lt (h1 q (List.mem_cons_self _ _))
      simp [insertById, this]

/-- Claim C1, amended — scoring tie-break: the winner is the maximal label
first inserted into the tally in AnswerSet insertion order; when the answers
were inserted in increasing question-id order (as happens when the question
list is scanned in increasing-id order) this is exactly the spec rule of
scanning the answers in increasing question-id order. -/
theorem scoreWinner_tie_break (answers : AnswerSet)
    (h : answers.Pairwise fun a b => a.1 < b.1) :
    scoreWinner answers = specTieBreakWinner answers := by
  rw [specTieBreakWinner, sortById_eq_self h]

/-- The fixed option-index oracle choosing the first option everywhere. -/
def pickZero : Nat → Nat := fun _ => 0

/-- A question list whose extraction order is not increasing in question id:
question 2 appears in the text before question 1. -/
def qsC1 : List Question :=
  [⟨2, "q2", [⟨ "o2", "A" ⟩]⟩, ⟨1, "q1", [⟨ "o1", "B" ⟩]⟩]

/-- Claim C1, counterexample: the Simulator builds this AnswerSet in
question scan order (2 before 1); both labels are tied at one point, the
code returns the first-inserted label A, but the label first inserted when
scanning in increasing question-id order is B. -/
theorem scoreWinner_tie_break_counterexample :
    trial_answers qsC1 pickZero = [(2, "A"), (1, "B")] ∧
    scoreWinner [(2, "A"), (1, "B")] = some "A" ∧
    specTieBreakWinner [(2, "A"), (1, "B")] = some "B" ∧
    ("A" : String) ≠ "B" := by
  refine ⟨rfl, rfl, rfl, by decide⟩

/-- Claim C1, witness for the amended theorem at a concrete id-sorted
AnswerSet. -/
theorem scoreWinner_tie_break_witness :
    (List.Pairwise (fun a b => a.1 < b.1) [((1 : Nat), "B"), (2, "A")]) ∧
    scoreWinner [((1 : Nat), "B"), (2, "A")] =
      specTieBreakWinner [((1 : Nat), "B"), (2, "A")] :=
  ⟨by simp, scoreWinner_tie_break _ (by simp)⟩

/-- The answer the probe records for one question (the body of lines
235-247, per question): the target label when some option carries it,
otherwise the label of the first option, and no answer at all for a
question without options. -/
def answerFor (q : Question) (t : String) : Option String :=
  match findTargetOption q.options t with
  | some _ => some t
  | none =>
    match q.options with
    | [] => none
    | o :: _ => some o.personality

/-- One probe construction step, rephrased through answerFor. -/
theorem targeted_answers_step_eq (t : String) (ans : AnswerSet) (q : Question) :
    targeted_answers_step t ans q =
      match answerFor q t with
      | none => ans
      | some v => dictInsert ans q.id v := by
  rw [targeted_answers_step, answerFor]
  cases findTargetOption q.options t <;> cases q.options <;> rfl

/-- The probe AnswerSet as a flat association list: one entry per question
with at least one option, in question order. -/
def targetedList (qs : List Question) (t : String) : List (Nat × String) :=
  qs.filterMap fun q => (answerFor q t).map fun v => (q.id, v)

/-- Inserting an absent key into a dict appends the pair. -/
theorem dictInsert_of_not_mem : ∀ {d : AnswerSet} {k : Nat} {v : String},
    ¬ k ∈ d.map Prod.fst → dictInsert d k v = d ++ [(k, v)]
  | [], _, _, _ => rfl
  | (k0, v0) :: rest, k, v, h => by
    have hk : k0 ≠ k := by simp at h; exact fun hc => (h.1 hc.symm).elim
    rw [dictInsert, if_neg hk, dictInsert_of_not_mem (by simp at h ⊢; exact h.2)]
    rfl

/-- Keys of the flat probe list come from the question ids. -/
theorem mem_keys_targetedList {qs : List Question} {t : String} {k : Nat}
    (h : k ∈ (targetedList qs t).map Prod.fst) : k ∈ qs.map Question.id := by
  rcases List.mem_map.mp h with ⟨p, hp, hpk⟩
  rcases List.mem_filterMap.mp hp with ⟨q, hq, hqp⟩
  rcases Option.map_eq_some'.mp hqp with ⟨v, _, hv⟩
  subst hv
  exact List.mem_map.mpr ⟨q, hq, hpk⟩

/-- The probe loop over questions with pairwise-distinct ids just collects
the per-question answers. -/
theorem foldl_targeted_eq : ∀ (qs : List Question) (t : String) (ans : AnswerSet),
    (qs.map Question.id).Nodup →
    (∀ q ∈ qs, ¬ q.id ∈ ans.map Prod.fst) →
    qs.foldl (targeted_answers_step t) ans = ans ++ targetedList qs t
  | [], t, ans, _, _ => by simp [targetedList]
  | q :: qs, t, ans, hnd, hdisj => by
    rcases List.pairwise_cons.mp hnd with ⟨hq, hnd'⟩
    rw [List.foldl_cons, targeted_answers_step_eq]
    cases hAns : answerFor q t with
    | none =>
      rw [foldl_targeted_eq qs t ans hnd'
        (fun q' hq' => hdisj q' (List.mem_cons_of_mem _ hq'))]
      simp [targetedList, hAns]
    | some v =>
      dsimp only
      rw [dictInsert_of_not_mem (hdisj q (List.mem_cons_self _ _))]
      rw [foldl_targeted_eq qs t (ans ++ [(q.id, v)]) hnd' ?_]
      · simp [targetedList, hAns]
      · intro q' hq'
        simp only [List.map_append, List.mem_append]
        rintro (hc | hc)
        · exact hdisj q' (List.mem_cons_of_mem _ hq') hc
        · simp at hc
          exact hq q'.id (List.mem_map.mpr ⟨q', hq', rfl⟩) hc.symm

/-- Looking a question id up in the flat probe list gives that question's
answer, when ids are pairwise distinct. -/
theorem dictGet_targetedList : ∀ (qs : List Question) (t : String) (q : Question),
    q ∈ qs → (qs.map Question.id).Nodup →
    dictGet (targetedList qs t) q.id = answerFor q t
  | q0 :: qs, t, q, hq, hnd => by
    rcases List.pairwise_cons.mp hnd with ⟨hq0, hnd'⟩
    rcases List.mem_cons.mp hq with rfl | hq'
    · cases hAns : answerFor q t with
      | some v =>
        simp [targetedList, hAns, dictGet, List.find?]
      | none =>
        simp only [targetedList, List.filterMap_cons, hAns, Option.map_none']
        rw [dictGet, List.find?_eq_none.mpr, Option.map_none']
        intro p hp
        have : p.1 ∈ (targetedList qs t).map Prod.fst := List.mem_map_of_mem _ hp
        have hne := hq0 p.1 (mem_keys_targetedList this)
        simpa using fun hc => hne (by simpa using hc.symm)
    · have hid : q.id ∈ qs.map Question.id := List.mem_map.mpr ⟨q, hq', rfl⟩
      have hne : ¬ (q0.id == q.id) = true := by
        simpa using fun hc => hq0 q.id hid (by simpa using hc)
      cases hAns : answerFor q0 t with
      | some v =>
        rw [targetedList, List.filterMap_cons, hAns, Option.map_some']
        rw [dictGet, List.find?]
        simp only [hne]
        exact dictGet_targetedList qs t q hq' hnd'
      | none =>
        rw [targetedList, List.filterMap_cons, hAns, Option.map_none']
        exact dictGet_targetedList qs t q hq' hnd'

/-- Looking a question id up in the built probe AnswerSet gives that
question's answer, when ids are pairwise distinct. -/
theorem dictGet_build_targeted (qs : List Question) (t : String) (q : Question)
    (hq : q ∈ qs) (hnd : (qs.map Question.id).Nodup) :
    dictGet (build_targeted_answers qs t) q.id = answerFor q t := by
  rw [build_targeted_answers, foldl_targeted_eq qs t [] hnd (by simp), List.nil_append]
  exact dictGet_targetedList qs t q hq hnd


/-- Membership of set.add. -/
theorem mem_setAdd {s : List String} {k a : String} :
    a ∈ setAdd s k ↔ a ∈ s ∨ a = k := by
  by_cases h : k ∈ s
  · simp only [setAdd, if_pos h]
    constructor
    · exact Or.inl
    · rintro (ha | rfl)
      · exact ha
      · exact h
  · simp [setAdd, if_neg h]

/-- set.add keeps the embedded set duplicate-free. -/
theorem nodup_setAdd {s : List String} {k : String} (h : s.Nodup) :
    (setAdd s k).Nodup := by
  by_cases hk : k ∈ s
  · simpa [setAdd, if_pos hk]
  · rw [setAdd, if_neg hk]
    refine List.Nodup.append h (List.nodup_singleton k) ?_
    intro x hx hxk
    rw [List.mem_singleton] at hxk
    exact hk (hxk ▸ hx)

/-- Membership after inserting into an ascending string list. -/
theorem mem_insertStr {x a : String} : ∀ {l : List String},
    a ∈ insertStr x l ↔ a = x ∨ a ∈ l
  | [] => by simp [insertStr]
  | y :: ys => by
    rw [insertStr]
    split
    · simp
    · simp only [List.mem_cons, mem_insertStr (l := ys)]
      tauto

/-- Membership is unchanged by Python sorted. -/
theorem mem_sortStr {a : String} : ∀ {l : List String}, a ∈ sortStr l ↔ a ∈ l
  | [] => Iff.rfl
  | x :: xs => by
    rw [sortStr, mem_insertStr, mem_sortStr (l := xs)]
    simp

/-- A probe whose AnswerSet has no winner records nothing. -/
theorem probe_step_none {qs : List Question} {acc : TargetedResult} {t' : String}
    (h : scoreWinner (build_targeted_answers qs t') = none) :
    probe_step qs acc t' = acc := by
  rw [probe_step, h]

/-- A probe whose winner is the target records the target successful. -/
theorem probe_step_success {qs : List Question} {acc : TargetedResult} {t' w : String}
    (h : scoreWinner (build_targeted_answers qs t') = some w) (hw : w = t') :
    probe_step qs acc t' = ⟨setAdd acc.successful t', acc.failed⟩ := by
  rw [probe_step, h]
  dsimp only
  rw [if_pos hw]

/-- A probe whose winner differs from the target records the target
failed. -/
theorem probe_step_fail {qs : List Question} {acc : TargetedResult} {t' w : String}
    (h : scoreWinner (build_targeted_answers qs t') = some w) (hw : ¬ w = t') :
    probe_step qs acc t' = ⟨acc.successful, setAdd acc.failed t'⟩ := by
  rw [probe_step, h]
  dsimp only
  rw [if_neg hw]

/-- Membership in the successful set after one probe step. -/
theorem probe_step_mem_successful {qs : List Question} {acc : TargetedResult}
    {t' t : String} :
    t ∈ (probe_step qs acc t').successful ↔
      t ∈ acc.successful ∨
        (t = t' ∧ scoreWinner (build_targeted_answers qs t') = some t') := by
  rcases hstep : scoreWinner (build_targeted_answers qs t') with _ | w
  · rw [probe_step_none hstep]
    simp [hstep]
  · by_cases hwt : w = t'
    · subst hwt
      rw [probe_step_success hstep rfl]
      dsimp only
      rw [mem_setAdd]
      simp [hstep]
    · rw [probe_step_fail hstep hwt]
      dsimp only
      simp only [Option.some.injEq]
      constructor
      · exact Or.inl
      · rintro (h | ⟨rfl, h⟩)
        · exact h
        · exact absurd h hwt
/-- Membership in the failed set after one probe step. -/
theorem probe_step_mem_failed {qs : List Question} {acc : TargetedResult}
    {t' t : String} :
    t ∈ (probe_step qs acc t').failed ↔
      t ∈ acc.failed ∨
        (t = t' ∧ ∃ w, scoreWinner (build_targeted_answers qs t') = some w ∧ w ≠ t') := by
  rcases hstep : scoreWinner (build_targeted_answers qs t') with _ | w
  · rw [probe_step_none hstep]
    simp [hstep]
  · by_cases hwt : w = t'
    · subst hwt
      rw [probe_step_success hstep rfl]
      dsimp only
      simp
    · rw [probe_step_fail hstep hwt]
      dsimp only
      rw [mem_setAdd]
      constructor
      · rintro (h | rfl)
        · exact Or.inl h
        · exact Or.inr ⟨rfl, w, rfl, hwt⟩
      · rintro (h | ⟨rfl, _⟩)
        · exact Or.inl h
        · exact Or.inr rfl
/-- Accumulated membership of the successful set over the probe loop. -/
theorem probe_foldl_mem_successful (qs : List Question) :
    ∀ (ts : List String) (acc : TargetedResult) (t : String),
    t ∈ (ts.foldl (probe_step qs) acc).successful ↔
      t ∈ acc.successful ∨
        (t ∈ ts ∧ scoreWinner (build_targeted_answers qs t) = some t)
  | [], acc, t => by simp
  | t' :: ts, acc, t => by
    rw [List.foldl_cons, probe_foldl_mem_successful qs ts _ t, probe_step_mem_successful]
    simp only [List.mem_cons]
    constructor
    · rintro ((h | ⟨rfl, h⟩) | ⟨h1, h2⟩)
      · exact Or.inl h
      · exact Or.inr ⟨Or.inl rfl, h⟩
      · exact Or.inr ⟨Or.inr h1, h2⟩
    · rintro (h | ⟨(rfl | h1), h2⟩)
      · exact Or.inl (Or.inl h)
      · exact Or.inl (Or.inr ⟨rfl, h2⟩)
      · exact Or.inr ⟨h1, h2⟩
/-- Accumulated membership of the failed set over the probe loop. -/
theorem probe_foldl_mem_failed (qs : List Question) :
    ∀ (ts : List String) (acc : TargetedResult) (t : String),
    t ∈ (ts.foldl (probe_step qs) acc).failed ↔
      t ∈ acc.failed ∨
        (t ∈ ts ∧ ∃ w, scoreWinner (build_targeted_answers qs t) = some w ∧ w ≠ t)
  | [], acc, t => by simp
  | t' :: ts, acc, t => by
    rw [List.foldl_cons, probe_foldl_mem_failed qs ts _ t, probe_step_mem_failed]
    simp only [List.mem_cons]
    constructor
    · rintro ((h | ⟨rfl, h⟩) | ⟨h1, h2⟩)
      · exact Or.inl h
      · exact Or.inr ⟨Or.inl rfl, h⟩
      · exact Or.inr ⟨Or.inr h1, h2⟩
    · rintro (h | ⟨(rfl | h1), h2⟩)
      · exact Or.inl (Or.inl h)
      · exact Or.inl (Or.inr ⟨rfl, h2⟩)
      · exact Or.inr ⟨h1, h2⟩

/-- Claim C3, amended — Targeted Prober contract: the probe loop runs once
for each observed label (sorted ascending), not once per reference label;
for each target the built AnswerSet answers, per question (under distinct
question ids), the target label when some option of the question carries it
and otherwise the first option's label (questions without options receive no
answer); the target is recorded successful exactly when the Scoring Engine's
winner on this AnswerSet is the target, and failed exactly when the winner
exists and differs. -/
theorem generate_targeted_tests_spec (qs : List Question) (t : String) :
    (t ∈ probeTargets qs ↔ t ∈ observedLabels qs) ∧
    (t ∈ (generate_targeted_tests qs).successful ↔
      t ∈ probeTargets qs ∧ scoreWinner (build_targeted_answers qs t) = some t) ∧
    (t ∈ (generate_targeted_tests qs).failed ↔
      t ∈ probeTargets qs ∧
        ∃ w, scoreWinner (build_targeted_answers qs t) = some w ∧ w ≠ t) ∧
    (∀ q ∈ qs, (qs.map Question.id).Nodup →
      dictGet (build_targeted_answers qs t) q.id = answerFor q t) := by
  refine ⟨mem_sortStr, ?_, ?_, ?_⟩
  · rw [generate_targeted_tests, probe_foldl_mem_successful]
    simp
  · rw [generate_targeted_tests, probe_foldl_mem_failed]
    simp
  · intro q hq hnd
    exact dictGet_build_targeted qs t q hq hnd

/-- A one-question quiz carrying a single label outside the reference set. -/
def qsC3 : List Question := [⟨1, "q", [⟨ "o", "X" ⟩]⟩]

/-- Claim C3, counterexample: on this quiz the probe loop runs once — for
the single observed label X, which is not one of the 15 reference labels —
and no probe runs for the reference label Leader; the loop does not run once
per reference label. -/
theorem generate_targeted_tests_counterexample :
    probeTargets qsC3 = [ "X" ] ∧
    (probeTargets qsC3).length = 1 ∧
    ¬ "X" ∈ referenceLabels ∧
    ¬ "Leader" ∈ probeTargets qsC3 ∧
    (1 : Nat) ≠ 15 :=
  ⟨rfl, rfl, by decide, by decide, by decide⟩

/-- A two-question quiz with distinct ids used as the probe witness. -/
def qsC3w : List Question :=
  [⟨1, "q1", [⟨ "a1", "A" ⟩, ⟨ "b1", "B" ⟩]⟩,
   ⟨2, "q2", [⟨ "a2", "A" ⟩, ⟨ "c2", "C" ⟩]⟩]

/-- The first question of the witness quiz. -/
def qC3w : Question := ⟨1, "q1", [⟨ "a1", "A" ⟩, ⟨ "b1", "B" ⟩]⟩

/-- Claim C3, witness for the amended theorem at a concrete quiz, target and
question. -/
theorem generate_targeted_tests_witness :
    qC3w ∈ qsC3w ∧ (qsC3w.map Question.id).Nodup ∧
    dictGet (build_targeted_answers qsC3w "B") qC3w.id = answerFor qC3w "B" ∧
    answerFor qC3w "B" = some "B" :=
  ⟨by decide, by decide,
    (generate_targeted_tests_spec qsC3w "B").2.2.2 qC3w (by decide) (by decide), rfl⟩

/-- Counter increment bumps exactly the incremented key's count. -/
theorem countOf_counterAdd : ∀ (c : List (String × Nat)) (k l : String),
    countOf (counterAdd c k) l = countOf c l + (if l = k then 1 else 0)
  | [], k, l => by
    by_cases hlk : l = k
    · subst hlk
      simp [countOf, counterAdd, List.find?]
    · have : ¬ (k == l) = true := by simpa using fun h => hlk (by simpa using h.symm)
      simp [countOf, counterAdd, List.find?, this, hlk]
  | (k0, n) :: rest, k, l => by
    by_cases h0 : k0 = k
    · subst h0
      rw [counterAdd, if_pos rfl]
      by_cases hlk : l = k0
      · subst hlk
        simp [countOf, List.find?]
      · have : ¬ (k0 == l) = true := by
          simpa using fun h => hlk (by simpa using h.symm)
        simp [countOf, List.find?, this, hlk]
    · rw [counterAdd, if_neg h0]
      by_cases hl0 : l = k0
      · subst hl0
        simp [countOf, List.find?, h0]
      · have : ¬ (k0 == l) = true := by
          simpa using fun h => hl0 (by simpa using h.symm)
        have ih := countOf_counterAdd rest k l
        simp only [countOf, List.find?, this, cond_false] at ih ⊢
        exact ih

/-- Invariants of the simulation loop, accumulated over any trial list: the
reachable set collects exactly the prior elements and the trial winners, it
stays duplicate-free, and the results Counter counts each label's wins. -/
theorem sim_foldl_spec (qs : List Question) (choice : Nat → Nat → Nat) :
    ∀ (ts : List Nat) (st : List (String × Nat) × List String) (l : String),
    (l ∈ (ts.foldl (sim_step qs choice) st).2 ↔
      l ∈ st.2 ∨ l ∈ ts.filterMap fun t => scoreWinner (trial_answers qs (choice t))) ∧
    (st.2.Nodup → (ts.foldl (sim_step qs choice) st).2.Nodup) ∧
    (countOf (ts.foldl (sim_step qs choice) st).1 l =
      countOf st.1 l +
        (ts.filterMap fun t => scoreWinner (trial_answers qs (choice t))).count l)
  | [], st, l => by simp
  | t :: ts, st, l => by
    rw [List.foldl_cons, List.filterMap_cons]
    rcases sim_foldl_spec qs choice ts (sim_step qs choice st t) l with ⟨ih1, ih2, ih3⟩
    rcases hw : scoreWinner (trial_answers qs (choice t)) with _ | w
    · have hstep : sim_step qs choice st t = st := by rw [sim_step, hw]
      rw [hstep] at ih1 ih2 ih3
      rw [hstep]
      dsimp only
      exact ⟨ih1, ih2, ih3⟩
    · have hstep : sim_step qs choice st t = (counterAdd st.1 w, setAdd st.2 w) := by
        rw [sim_step, hw]
      rw [hstep] at ih1 ih2 ih3
      rw [hstep]
      dsimp only
      refine ⟨?_, ?_, ?_⟩
      · rw [ih1]
        dsimp only
        rw [mem_setAdd]
        simp only [List.mem_cons]
        tauto
      · intro hnd
        exact ih2 (nodup_setAdd hnd)
      · rw [ih3]
        dsimp only
        rw [countOf_counterAdd, List.count_cons]
        by_cases hlw : l = w
        · subst hlw
          simp
          omega
        · have : ¬ (l == w) = true := by simpa using hlw
          simp [this, hlw]
          exact fun h => hlw h.symm

/-- Claim C4, amended — Simulator reporting: after running the trials
(default 1000), the result reports how many distinct labels were ever the
winning label (the reachable count — counted over the labels that actually
won, which need not belong to the 15 reference labels), which observed
labels were never the winning label, and the per-label frequency of winners
over the trials. -/
theorem simulate_quiz_results_spec (qs : List Question) (numSims : Nat)
    (choice : Nat → Nat → Nat) (l : String) :
    ((simulate_quiz_results qs numSims choice).reachable_count =
      (simulate_quiz_results qs numSims choice).reachable_personalities.length) ∧
    (simulate_quiz_results qs numSims choice).reachable_personalities.Nodup ∧
    (l ∈ (simulate_quiz_results qs numSims choice).reachable_personalities ↔
      l ∈ trialWinners qs numSims choice) ∧
    (l ∈ (simulate_quiz_results qs numSims choice).missing_personalities ↔
      l ∈ observedLabels qs ∧ ¬ l ∈ trialWinners qs numSims choice) ∧
    (countOf (simulate_quiz_results qs numSims choice).results_distribution l =
      (trialWinners qs numSims choice).count l) ∧
    defaultNumSims = 1000 := by
  rcases sim_foldl_spec qs choice (List.range numSims) ([], []) l with ⟨h1, h2, h3⟩
  have hiff : l ∈ ((List.range numSims).foldl (sim_step qs choice) ([], [])).2 ↔
      l ∈ trialWinners qs numSims choice := by
    rw [h1]
    simp [trialWinners]
  constructor
  · rfl
  constructor
  · exact h2 List.nodup_nil
  constructor
  · exact hiff
  constructor
  · show l ∈ (observedLabels qs).filter
        (fun p => ¬ p ∈ ((List.range numSims).foldl (sim_step qs choice) ([], [])).2) ↔ _
    rw [List.mem_filter]
    constructor
    · rintro ⟨hobs, hdec⟩
      exact ⟨hobs, fun hc => of_decide_eq_true hdec (hiff.mpr hc)⟩
    · rintro ⟨hobs, hnot⟩
      exact ⟨hobs, decide_eq_true fun hc => hnot (hiff.mp hc)⟩
  constructor
  · show countOf ((List.range numSims).foldl (sim_step qs choice) ([], [])).1 l = _
    rw [h3]
    simp [countOf, trialWinners, List.find?]
  · rfl

/-- The fixed trial oracle choosing the first option everywhere. -/
def choiceZero : Nat → Nat → Nat := fun _ _ => 0

/-- A one-question quiz carrying a single label outside the reference set,
for the simulation counterexample. -/
def qsC4 : List Question := [⟨1, "q", [⟨ "o", "Zz" ⟩]⟩]

/-- Claim C4, counterexample: after one trial the only winner is the
non-reference label Zz, so the reported reachable count is 1 while the
number of reference labels that were ever the winning label is 0. -/
theorem simulate_quiz_results_counterexample :
    (simulate_quiz_results qsC4 1 choiceZero).reachable_count = 1 ∧
    trialWinners qsC4 1 choiceZero = [ "Zz" ] ∧
    (referenceLabels.filter fun l => l ∈ trialWinners qsC4 1 choiceZero).length = 0 ∧
    (1 : Nat) ≠ 0 :=
  ⟨rfl, rfl, by decide, by decide⟩

/-- First-occurrence deduplication is a permutation of Mathlib
deduplication. -/
theorem dedupFirst_perm_dedup (l : List String) : List.Perm (dedupFirst l) l.dedup :=
  (List.perm_ext_iff_of_nodup (nodup_dedupFirst l) l.nodup_dedup).mpr
    fun a => by rw [mem_dedupFirst, List.mem_dedup]

/-- The sum of the Counter values is the total number of options: summing
the per-key counts over the distinct keys recovers the length of the counted
list. -/
theorem total_options_eq_length (qs : List Question) :
    total_options qs = (allLabels qs).length := by
  rw [total_options, distributionCounts, List.map_map]
  have h1 : ((observedLabels qs).map fun x => (allLabels qs).count x).sum =
      (((allLabels qs).dedup).map fun x => (allLabels qs).count x).sum :=
    ((dedupFirst_perm_dedup (allLabels qs)).map _).sum_eq
  calc ((observedLabels qs).map ((fun p : String × Nat => p.2) ∘
          fun l => (l, labelCount qs l))).sum
      = ((observedLabels qs).map fun x => (allLabels qs).count x).sum := rfl
    _ = (((allLabels qs).dedup).map fun x => (allLabels qs).count x).sum := h1
    _ = (allLabels qs).length := List.sum_map_count_dedup_eq_length _

/-- Claim C8 — Distribution Analyzer output: missing labels are the
reference labels not observed, extra labels are the observed labels outside
the reference set, the per-label count is the number of options carrying the
label, the ideal share is the total option count divided by 15, and with
zero total options the per-label percentage defaults to 0 instead of
dividing by zero; every part is total, so the analyzer never fails. -/
theorem analyze_personality_distribution_spec (qs : List Question) (l : String) :
    (l ∈ missing_personalities qs ↔ l ∈ referenceLabels ∧ ¬ l ∈ observedLabels qs) ∧
    (l ∈ extra_personalities qs ↔ l ∈ observedLabels qs ∧ ¬ l ∈ referenceLabels) ∧
    (labelCount qs l = (allLabels qs).count l) ∧
    (total_options qs = (allLabels qs).length) ∧
    (ideal_per_personality qs = (total_options qs : ℚ) / 15) ∧
    (total_options qs = 0 → percentageOf qs l = 0) := by
  refine ⟨?_, ?_, rfl, total_options_eq_length qs, ?_, ?_⟩
  · simp [missing_personalities]
  · simp [extra_personalities]
  · rw [ideal_per_personality]
    norm_num [referenceLabels]
  · intro h
    rw [percentageOf, if_neg]
    omega

/-- Claim C8, witness at the empty question list and one reference label. -/
theorem analyze_personality_distribution_witness :
    total_options ([] : List Question) = 0 ∧
    percentageOf [] "Stratège" = 0 ∧
    ("Stratège" ∈ missing_personalities [] ↔
      "Stratège" ∈ referenceLabels ∧ ¬ "Stratège" ∈ observedLabels []) :=
  ⟨rfl, (analyze_personality_distribution_spec [] "Stratège").2.2.2.2.2 rfl,
    (analyze_personality_distribution_spec [] "Stratège").1⟩

/-- Claim C2 — the degenerate zero-question input: the balance statistics of
source lines 160-161 divide by the number of analysed questions and raise
ZeroDivisionError on the empty question list, and the count spread of source
line 309 takes max and min of the empty distribution and raises ValueError;
neither returns a default value. -/
theorem degenerate_input_crash :
    balance_averages ([] : List Question) = none ∧
    countSpread ((distributionCounts ([] : List Question)).map fun p => p.2) = none :=
  ⟨rfl, rfl⟩

/-- An input text without any question record. -/
def noRecordsText : String := "plain text with no question records"

/-- Claim C7 — load errors abort the run with no analysis (the none branch
of mainFlow), but they are not the only fatal path: a successfully loaded
input with zero questions also produces no report, because the balance
statistics raise on the empty question list. -/
theorem main_fatal_paths :
    mainFlow none defaultNumSims choiceZero = RunOutcome.loadFailed ∧
    load_quiz noRecordsText = [] ∧
    mainFlow (some noRecordsText) defaultNumSims choiceZero = RunOutcome.crashed :=
  ⟨rfl, rfl, rfl⟩

/-- The question ids produced by the Extractor are exactly the ids of the
matched question records, in match order. -/
theorem load_quiz_ids_eq (content : String) :
    (load_quiz content).map Question.id =
      (findQuestions content.toList).map fun m => m.1 := by
  rw [load_quiz, List.map_map]
  rfl

/-- Claim C9, amended — question identifiers come one-for-one from the
matched records, so they are pairwise distinct whenever the matched records
carry pairwise-distinct ids; the Extractor itself never enforces
distinctness. -/
theorem load_quiz_ids_nodup (content : String)
    (h : ((findQuestions content.toList).map fun m => m.1).Nodup) :
    ((load_quiz content).map Question.id).Nodup := by
  rw [load_quiz_ids_eq]
  exact h

/-- An input text with two question records both carrying id 1. -/
def dupIdText : String :=
  "\x7b id: 1, question: \"a\", options: [] \x7d \x7b id: 1, question: \"b\", options: [] \x7d"

/-- Claim C9, counterexample: on an input text with two records sharing
id 1 the Extractor produces two Questions with the same identifier. -/
theorem load_quiz_dup_ids_counterexample :
    (load_quiz dupIdText).map Question.id = [1, 1] ∧
    ¬ ((load_quiz dupIdText).map Question.id).Nodup := by
  refine ⟨rfl, ?_⟩
  rw [show (load_quiz dupIdText).map Question.id = [1, 1] from rfl]
  decide

/-- An input text with two question records carrying distinct ids. -/
def distinctIdText : String :=
  "\x7b id: 1, question: \"a\", options: [] \x7d \x7b id: 2, question: \"b\", options: [] \x7d"

/-- Claim C9, witness for the amended theorem at a concrete two-record
input. -/
theorem load_quiz_ids_nodup_witness :
    ((findQuestions distinctIdText.toList).map fun m => m.1).Nodup ∧
    ((load_quiz distinctIdText).map Question.id).Nodup :=
  ⟨by rw [show ((findQuestions distinctIdText.toList).map fun m => m.1) = [1, 2] from rfl]
      decide,
   load_quiz_ids_nodup distinctIdText
    (by rw [show ((findQuestions distinctIdText.toList).map fun m => m.1) = [1, 2] from rfl]
        decide)⟩

/-- Claim C10, amended — an input text with no recognizable question record
is not a load error: extraction succeeds with zero questions and the run
proceeds into the analysis, but the balance statistics of line 160 then
divide by zero, so the run crashes and no report is produced. -/
theorem empty_load_proceeds_and_crashes (content : String)
    (h : findQuestions content.toList = []) :
    load_quiz content = [] ∧
    ∀ (numSims : Nat) (choice : Nat → Nat → Nat),
      mainFlow (some content) numSims choice = RunOutcome.crashed := by
  have hl : load_quiz content = [] := by
    rw [load_quiz, h]
    rfl
  refine ⟨hl, fun numSims choice => ?_⟩
  show (match generate_report (load_quiz content) numSims choice with
    | none => RunOutcome.crashed
    | some r => RunOutcome.reported r.1 r.2.1 r.2.2) = RunOutcome.crashed
  rw [hl]
  rfl

/-- An input text with no recognizable question record. -/
def noQuestionText : String := "just some page text"

/-- Claim C10, counterexample: loading this text succeeds with zero
questions, yet the run ends in the crash outcome instead of producing a
report. -/
theorem empty_load_no_report_counterexample :
    load_quiz noQuestionText = [] ∧
    mainFlow (some noQuestionText) defaultNumSims choiceZero = RunOutcome.crashed ∧
    RunOutcome.crashed ≠ RunOutcome.loadFailed :=
  ⟨rfl, rfl, by decide⟩

/-- Another input text with no recognizable question record, used as the
amended-theorem witness. -/
def emptyInputText : String := "no structured records at all"

/-- Claim C10, witness for the amended theorem at a concrete record-free
input. -/
theorem empty_load_witness :
    findQuestions emptyInputText.toList = [] ∧
    load_quiz emptyInputText = [] ∧
    mainFlow (some emptyInputText) defaultNumSims choiceZero = RunOutcome.crashed :=
  ⟨rfl, (empty_load_proceeds_and_crashes emptyInputText rfl).1,
    (empty_load_proceeds_and_crashes emptyInputText rfl).2 defaultNumSims choiceZero⟩

/-- A concrete AnswerSet with a strictly unique maximal label. -/
def ansC6 : AnswerSet := [(1, "A"), (2, "B"), (3, "A")]

/-- Claim C6, witness at a concrete AnswerSet whose label A holds the unique
maximum tally. -/
theorem scoreWinner_unique_max_witness :
    ansC6 ≠ [] ∧
    (ansC6.map Prod.snd).count "A" = maxScore (ansC6.map Prod.snd) ∧
    (∀ x ∈ ansC6.map Prod.snd, x ≠ "A" →
      (ansC6.map Prod.snd).count x < (ansC6.map Prod.snd).count "A") ∧
    scoreWinner ansC6 = some "A" :=
  ⟨by decide, by decide, by decide,
    scoreWinner_unique_max ansC6 "A" (by decide) (by decide) (by decide)⟩
